import Mathlib

/-!
Verification of the LS8 emulator (`src/ls8/cpu.py`).

The Python `CPU` class is shallowly embedded here.  Python numbers are
modelled by `Val`: an `int` (unbounded `Int`, may go negative via
`SUB`/`DEC`) or a `float` (produced only by the `DIV` operation's true
division `/=`).  A float's value is modelled as the exact rational of the
division; IEEE-754 rounding is not representable here and no claim depends
on a float's numeric value — only on which operations succeed and on the
integer-valued state.  Python list indexing (`self.ram[i]`, `self.reg[i]`)
accepts int indices in `[-len, len)`, negative indices counting from the
end, and raises `IndexError` otherwise; a float index raises `TypeError`.
Fallible operations are modelled in the `Option` monad, `none` standing for
a raised exception that aborts `run()`.  The flag field `fl` is a `Nat`:
it only ever receives results of `&` and `|` with non-negative literals.
-/

namespace LS8

/-- A Python numeric value held in a register, in memory, or in the program
counter: an `int`, or a `float` (its value kept as an exact rational). -/
inductive Val where
  | vint (i : Int)
  | vfloat (q : ℚ)
  deriving DecidableEq, Repr

namespace Val

/-- Numeric value of a `Val`, for Python's numeric comparisons (`<`, `>`,
`==` compare ints and floats by value). -/
def toQ : Val → ℚ
  | vint i => (i : ℚ)
  | vfloat q => q

/-- Python `+`: `int + int` is an `int`; any float operand gives a float. -/
def add : Val → Val → Val
  | vint a, vint b => vint (a + b)
  | a, b => vfloat (a.toQ + b.toQ)

/-- Python `-` (binary): `int - int` is an `int`; otherwise a float. -/
def sub : Val → Val → Val
  | vint a, vint b => vint (a - b)
  | a, b => vfloat (a.toQ - b.toQ)

/-- Python `*`: `int * int` is an `int`; otherwise a float. -/
def mul : Val → Val → Val
  | vint a, vint b => vint (a * b)
  | a, b => vfloat (a.toQ * b.toQ)

/-- Python true division `/`: raises `ZeroDivisionError` on a zero divisor
and otherwise always produces a float, even from two ints. -/
def div (a b : Val) : Option Val :=
  if b.toQ = 0 then none else some (vfloat (a.toQ / b.toQ))

/-- Python `&`: defined on two ints, `TypeError` if a float is involved. -/
def land : Val → Val → Option Val
  | vint a, vint b => some (vint (Int.land a b))
  | _, _ => none

/-- Python `|`: defined on two ints, `TypeError` otherwise. -/
def lor : Val → Val → Option Val
  | vint a, vint b => some (vint (Int.lor a b))
  | _, _ => none

/-- Python `^`: defined on two ints, `TypeError` otherwise. -/
def lxor : Val → Val → Option Val
  | vint a, vint b => some (vint (Int.xor a b))
  | _, _ => none

/-- Python `<<`: defined on two ints with a non-negative shift count
(`ValueError` on a negative count, `TypeError` on a float). -/
def shl : Val → Val → Option Val
  | vint a, vint b => if 0 ≤ b then some (vint (a * 2 ^ b.toNat)) else none
  | _, _ => none

/-- Extraction of the `int` behind a `Val` where Python requires one (the
decode's `ir >> 6` and `ir & m`): a float there raises `TypeError`. -/
def toInt? : Val → Option Int
  | vint i => some i
  | vfloat _ => none

end Val

/-- Observable output events: `PRN` prints a register value, and the run
loop prints one diagnostic line (opcode and address) for an unknown opcode.
The exact wording is not modelled, only the information content. -/
inductive Out where
  | prn (v : Val)
  | invalid (op : Int) (addr : Val)
  deriving DecidableEq, Repr

/-- Machine state: the fields of the Python `CPU` object (`pc`, `ram`,
`reg`, `halted`, `setsPC`, `fl`), plus the accumulated console output. -/
structure CPUState where
  pc : Val
  ram : Fin 256 → Val
  reg : Fin 8 → Val
  halted : Bool
  setsPC : Bool
  fl : Nat
  out : List Out

/-- Python list index resolution for a 256-element list: an int index `i`
with `-256 ≤ i < 256` resolves (negative indices count from the end, which
is exactly `i % 256` here); an out-of-range int raises `IndexError` and a
float raises `TypeError`. -/
def pyIdx : Val → Option (Fin 256)
  | .vint i =>
    if -256 ≤ i ∧ i < 256 then
      some ⟨(i % 256).toNat, by
        have h1 : 0 ≤ i % 256 := Int.emod_nonneg i (by norm_num)
        have h2 : i % 256 < 256 := Int.emod_lt_of_pos i (by norm_num)
        omega⟩
    else none
  | .vfloat _ => none

/-- Python list index resolution for the 8-element register file. -/
def pyIdx8 : Val → Option (Fin 8)
  | .vint i =>
    if -8 ≤ i ∧ i < 8 then
      some ⟨(i % 8).toNat, by
        have h1 : 0 ≤ i % 8 := Int.emod_nonneg i (by norm_num)
        have h2 : i % 8 < 8 := Int.emod_lt_of_pos i (by norm_num)
        omega⟩
    else none
  | .vfloat _ => none

namespace CPU

/-- Opcode HLT = 0b00000001. -/
def HLT : Int := 0x01
/-- Opcode LDI = 0b10000010. -/
def LDI : Int := 0x82
/-- Opcode PRN = 0b01000111. -/
def PRN : Int := 0x47
/-- Opcode MUL = 0b10100010. -/
def MUL : Int := 0xA2
/-- Opcode PSH = 0b01000101. -/
def PSH : Int := 0x45
/-- Opcode POP = 0b01000110. -/
def POP : Int := 0x46
/-- Opcode CALL = 0b01010000. -/
def CALL : Int := 0x50
/-- Opcode RET = 0b00010001. -/
def RET : Int := 0x11
/-- Opcode ADD = 0b10100000. -/
def ADD : Int := 0xA0
/-- Opcode AND = 0b10101000. -/
def AND : Int := 0xA8
/-- Opcode CMP = 0b10100111. -/
def CMP : Int := 0xA7
/-- Opcode DEC = 0b01100110. -/
def DEC : Int := 0x66
/-- Opcode DIV = 0b10100011. -/
def DIV : Int := 0xA3
/-- Opcode INC = 0b01100101. -/
def INC : Int := 0x65
/-- Opcode IRET = 0b00010011 (defined in the source but not wired into the
dispatch table; its handler is commented out). -/
def IRET : Int := 0x13
/-- Opcode JEQ = 0b01010101. -/
def JEQ : Int := 0x55
/-- Opcode JLE = 0b01011001 (defined but not wired). -/
def JLE : Int := 0x59
/-- Opcode JLT = 0b01011000 (defined but not wired). -/
def JLT : Int := 0x58
/-- Opcode JMP = 0b01010100. -/
def JMP : Int := 0x54
/-- Opcode JNE = 0b01010110. -/
def JNE : Int := 0x56
/-- Opcode LD = 0b10000011 (defined but not wired). -/
def LD : Int := 0x83
/-- Opcode OR = 0b10101010. -/
def OR : Int := 0xAA
/-- Opcode PRA = 0b01001000 (defined but not wired). -/
def PRA : Int := 0x48
/-- Opcode SHL = 0b10101100. -/
def SHL : Int := 0xAC
/-- Opcode ST = 0b10000100 (defined but not wired). -/
def ST : Int := 0x84
/-- Opcode SUB = 0b10100001. -/
def SUB : Int := 0xA1
/-- Opcode XOR = 0b10101011. -/
def XOR : Int := 0xAB

/-- Flag bit LT = 0b100 (source constant `LT`, renamed to avoid clashing
with the order type class). -/
def flLT : Nat := 0b100
/-- Flag bit GT = 0b010 (source constant `GT`, renamed as above). -/
def flGT : Nat := 0b010
/-- Flag bit EQ = 0b001 (source constant `EQ`, renamed as above). -/
def flEQ : Nat := 0b001

/-- Register index of the stack pointer (`self.SP = 7`). -/
def SP : Fin 8 := 7

/-- ALU operation name "ADD" (the source dispatches `alu` on strings). -/
def opADD : String := "ADD"
/-- ALU operation name "AND". -/
def opAND : String := "AND"
/-- ALU operation name "SUB". -/
def opSUB : String := "SUB"
/-- ALU operation name "MUL". -/
def opMUL : String := "MUL"
/-- ALU operation name "DIV". -/
def opDIV : String := "DIV"
/-- ALU operation name "DEC". -/
def opDEC : String := "DEC"
/-- ALU operation name "INC". -/
def opINC : String := "INC"
/-- ALU operation name "CMP". -/
def opCMP : String := "CMP"
/-- ALU operation name "OR". -/
def opOR : String := "OR"
/-- ALU operation name "SHL". -/
def opSHL : String := "SHL"
/-- ALU operation name "XOR". -/
def opXOR : String := "XOR"

/-- `ram_read(self, mar)`: `return self.ram[mar]`. -/
def ram_read (s : CPUState) (mar : Val) : Option Val :=
  (pyIdx mar).map s.ram

/-- `ram_write(self, mdr, mar)`: `self.ram[mar] = mdr`. -/
def ram_write (s : CPUState) (mdr mar : Val) : Option CPUState :=
  (pyIdx mar).map fun i => { s with ram := Function.update s.ram i mdr }

/-- `alu(self, op, reg_a, reg_b)`.  The branches appear in source order.
`reg_b` is an `Option` because `dec`/`inc` pass Python `None`; using `None`
as a list index would raise, which the `none` propagation captures.
The `DIV` branch performs Python true division (`/=`): it raises on a zero
divisor and otherwise stores a float (see the note on `Val` about its
value).  An unrecognised `op` raises
`Exception("Unsupported ALU operation")`. -/
def alu (s : CPUState) (op : String) (reg_a : Val) (reg_b : Option Val) :
    Option CPUState :=
  if op = opADD then do
    let ia ← pyIdx8 reg_a
    let rb ← reg_b
    let ib ← pyIdx8 rb
    some { s with reg := Function.update s.reg ia (Val.add (s.reg ia) (s.reg ib)) }
  else if op = opAND then do
    let ia ← pyIdx8 reg_a
    let rb ← reg_b
    let ib ← pyIdx8 rb
    let v ← Val.land (s.reg ia) (s.reg ib)
    some { s with reg := Function.update s.reg ia v }
  else if op = opSUB then do
    let ia ← pyIdx8 reg_a
    let rb ← reg_b
    let ib ← pyIdx8 rb
    some { s with reg := Function.update s.reg ia (Val.sub (s.reg ia) (s.reg ib)) }
  else if op = opMUL then do
    let ia ← pyIdx8 reg_a
    let rb ← reg_b
    let ib ← pyIdx8 rb
    some { s with reg := Function.update s.reg ia (Val.mul (s.reg ia) (s.reg ib)) }
  else if op = opDIV then do
    let ia ← pyIdx8 reg_a
    let rb ← reg_b
    let ib ← pyIdx8 rb
    let v ← Val.div (s.reg ia) (s.reg ib)
    some { s with reg := Function.update s.reg ia v }
  else if op = opDEC then do
    let ia ← pyIdx8 reg_a
    some { s with reg := Function.update s.reg ia (Val.sub (s.reg ia) (.vint 1)) }
  else if op = opINC then do
    let ia ← pyIdx8 reg_a
    some { s with reg := Function.update s.reg ia (Val.add (s.reg ia) (.vint 1)) }
  else if op = opCMP then do
    let rb ← reg_b
    let ia ← pyIdx8 reg_a
    let ib ← pyIdx8 rb
    let fl1 := s.fl &&& 0x11111000
    if (s.reg ia).toQ < (s.reg ib).toQ then some { s with fl := fl1 ||| flLT }
    else if (s.reg ia).toQ > (s.reg ib).toQ then some { s with fl := fl1 ||| flGT }
    else some { s with fl := fl1 ||| flEQ }
  else if op = opOR then do
    let ia ← pyIdx8 reg_a
    let rb ← reg_b
    let ib ← pyIdx8 rb
    let v ← Val.lor (s.reg ia) (s.reg ib)
    some { s with reg := Function.update s.reg ia v }
  else if op = opSHL then do
    let ia ← pyIdx8 reg_a
    let rb ← reg_b
    let ib ← pyIdx8 rb
    let v ← Val.shl (s.reg ia) (s.reg ib)
    some { s with reg := Function.update s.reg ia v }
  else if op = opXOR then do
    let ia ← pyIdx8 reg_a
    let rb ← reg_b
    let ib ← pyIdx8 rb
    let v ← Val.lxor (s.reg ia) (s.reg ib)
    some { s with reg := Function.update s.reg ia v }
  else none

/-- `ldi(self, operand_a, operand_b)`: `self.reg[operand_a] = operand_b`. -/
def ldi (s : CPUState) (operand_a operand_b : Val) : Option CPUState := do
  let i ← pyIdx8 operand_a
  some { s with reg := Function.update s.reg i operand_b }

/-- `prn(self, operand_a, operand_b)`: `print(self.reg[operand_a])`. -/
def prn (s : CPUState) (operand_a operand_b : Val) : Option CPUState := do
  let i ← pyIdx8 operand_a
  some { s with out := s.out ++ [Out.prn (s.reg i)] }

/-- `pshVal(self, val)`: decrement `reg[SP]`, then `ram_write(val, reg[SP])`. -/
def pshVal (s : CPUState) (val : Val) : Option CPUState :=
  let s1 := { s with reg := Function.update s.reg SP (Val.sub (s.reg SP) (.vint 1)) }
  ram_write s1 val (s1.reg SP)

/-- `psh(self, operand_a, operand_b)`: `self.pshVal(self.reg[operand_a])`. -/
def psh (s : CPUState) (operand_a operand_b : Val) : Option CPUState := do
  let i ← pyIdx8 operand_a
  pshVal s (s.reg i)

/-- `popVal(self)`: read `ram[reg[SP]]`, increment `reg[SP]`, return value. -/
def popVal (s : CPUState) : Option (Val × CPUState) := do
  let val ← ram_read s (s.reg SP)
  some (val, { s with reg := Function.update s.reg SP (Val.add (s.reg SP) (.vint 1)) })

/-- `pop(self, operand_a, operand_b)`: `self.reg[operand_a] = self.popVal()`. -/
def pop (s : CPUState) (operand_a operand_b : Val) : Option CPUState := do
  let (val, s1) ← popVal s
  let i ← pyIdx8 operand_a
  some { s1 with reg := Function.update s1.reg i val }

/-- `call(self, operand_a, operand_b)`: `self.pshVal(self.pc + 2)`, then
`self.pc = self.reg[operand_a]` (the register is read after the push). -/
def call (s : CPUState) (operand_a operand_b : Val) : Option CPUState := do
  let s1 ← pshVal s (Val.add s.pc (.vint 2))
  let i ← pyIdx8 operand_a
  some { s1 with pc := s1.reg i }

/-- `ret(self, operand_a, operand_b)`: `self.pc = self.popVal()`. -/
def ret (s : CPUState) (operand_a operand_b : Val) : Option CPUState := do
  let (val, s1) ← popVal s
  some { s1 with pc := val }

/-- `jmp(self, operand_a, operand_b)`: `self.pc = self.reg[operand_a]`. -/
def jmp (s : CPUState) (operand_a operand_b : Val) : Option CPUState := do
  let i ← pyIdx8 operand_a
  some { s with pc := s.reg i }

/-- `jeq`: `if self.fl & EQ:` jump, `else: self.setsPC = False`. -/
def jeq (s : CPUState) (operand_a operand_b : Val) : Option CPUState :=
  if s.fl &&& flEQ ≠ 0 then do
    let i ← pyIdx8 operand_a
    some { s with pc := s.reg i }
  else some { s with setsPC := false }

/-- `jne`: `if not self.fl & EQ:` jump, `else: self.setsPC = False`. -/
def jne (s : CPUState) (operand_a operand_b : Val) : Option CPUState :=
  if s.fl &&& flEQ = 0 then do
    let i ← pyIdx8 operand_a
    some { s with pc := s.reg i }
  else some { s with setsPC := false }

/-- `hlt(self, operand_a, operand_b)`: `self.halted = True`. -/
def hlt (s : CPUState) (operand_a operand_b : Val) : Option CPUState :=
  some { s with halted := true }

/-- Wrapper `add`: `self.alu("ADD", operand_a, operand_b)`. -/
def add (s : CPUState) (operand_a operand_b : Val) : Option CPUState :=
  alu s opADD operand_a (some operand_b)

/-- Wrapper `andd`: `self.alu("AND", operand_a, operand_b)`. -/
def andd (s : CPUState) (operand_a operand_b : Val) : Option CPUState :=
  alu s opAND operand_a (some operand_b)

/-- Wrapper `sub`: `self.alu("SUB", operand_a, operand_b)`. -/
def sub (s : CPUState) (operand_a operand_b : Val) : Option CPUState :=
  alu s opSUB operand_a (some operand_b)

/-- Wrapper `mul`: `self.alu("MUL", operand_a, operand_b)`. -/
def mul (s : CPUState) (operand_a operand_b : Val) : Option CPUState :=
  alu s opMUL operand_a (some operand_b)

/-- Wrapper `div`: `self.alu("DIV", operand_a, operand_b)`. -/
def div (s : CPUState) (operand_a operand_b : Val) : Option CPUState :=
  alu s opDIV operand_a (some operand_b)

/-- Wrapper `dec`: `self.alu("DEC", operand_a, None)`. -/
def dec (s : CPUState) (operand_a operand_b : Val) : Option CPUState :=
  alu s opDEC operand_a none

/-- Wrapper `inc`: `self.alu("INC", operand_a, None)`. -/
def inc (s : CPUState) (operand_a operand_b : Val) : Option CPUState :=
  alu s opINC operand_a none

/-- Wrapper `orr`: `self.alu("OR", operand_a, operand_b)`. -/
def orr (s : CPUState) (operand_a operand_b : Val) : Option CPUState :=
  alu s opOR operand_a (some operand_b)

/-- Wrapper `xor`: `self.alu("XOR", operand_a, operand_b)`. -/
def xor (s : CPUState) (operand_a operand_b : Val) : Option CPUState :=
  alu s opXOR operand_a (some operand_b)

/-- Wrapper `cmp`: `self.alu("CMP", operand_a, operand_b)`. -/
def cmp (s : CPUState) (operand_a operand_b : Val) : Option CPUState :=
  alu s opCMP operand_a (some operand_b)

/-- Wrapper `shl`: `self.alu("SHL", operand_a, operand_b)`. -/
def shl (s : CPUState) (operand_a operand_b : Val) : Option CPUState :=
  alu s opSHL operand_a (some operand_b)

/-- The keys of `self.branchtable` (the wired opcodes, in source order;
`IRET`, `JLE`, `JLT`, `LD`, `PRA`, `ST` are commented out in the source). -/
def branchtable : List Int :=
  [HLT, LDI, PRN, MUL, POP, PSH, CALL, RET, ADD, AND, CMP, DEC, DIV, INC,
   JEQ, JMP, JNE, OR, SHL, SUB, XOR]

/-- `self.branchtable[ir](operand_a, operand_b)`: dispatch to the handler
keyed by the opcode byte. -/
def execInstr (ir : Int) (s : CPUState) (operand_a operand_b : Val) :
    Option CPUState :=
  if ir = HLT then hlt s operand_a operand_b
  else if ir = LDI then ldi s operand_a operand_b
  else if ir = PRN then prn s operand_a operand_b
  else if ir = MUL then mul s operand_a operand_b
  else if ir = POP then pop s operand_a operand_b
  else if ir = PSH then psh s operand_a operand_b
  else if ir = CALL then call s operand_a operand_b
  else if ir = RET then ret s operand_a operand_b
  else if ir = ADD then add s operand_a operand_b
  else if ir = AND then andd s operand_a operand_b
  else if ir = CMP then cmp s operand_a operand_b
  else if ir = DEC then dec s operand_a operand_b
  else if ir = DIV then div s operand_a operand_b
  else if ir = INC then inc s operand_a operand_b
  else if ir = JEQ then jeq s operand_a operand_b
  else if ir = JMP then jmp s operand_a operand_b
  else if ir = JNE then jne s operand_a operand_b
  else if ir = OR then orr s operand_a operand_b
  else if ir = SHL then shl s operand_a operand_b
  else if ir = SUB then sub s operand_a operand_b
  else if ir = XOR then xor s operand_a operand_b
  else none

/-- One iteration of the body of the `while not self.halted` loop in
`run()`: fetch `ir = self.ram[self.pc]` and the two operand bytes, then
compute `fndInst = ((ir >> 6) & 0b11) + 1` and
`self.setsPC = ((ir >> 4) & 0b1) == 1` — the shifts require an int, which
`Val.toInt?` checks exactly where Python's `ir >> 6` would raise on a
float; Python `x >> n` is floor division by `2 ^ n` and `& m` with an
all-ones low mask is the non-negative remainder, so they are rendered with
`Int.fdiv` and `%`.  Dispatch through the branch table or print the
invalid-instruction diagnostic, then advance `pc` by `fndInst` unless
`setsPC` is still set. -/
def stepState (s : CPUState) : Option CPUState := do
  let irv ← ram_read s s.pc
  let operand_a ← ram_read s (Val.add s.pc (.vint 1))
  let operand_b ← ram_read s (Val.add s.pc (.vint 2))
  let ir ← irv.toInt?
  let fndInst : Int := (ir.fdiv 64) % 4 + 1
  let s1 : CPUState := { s with setsPC := (ir.fdiv 16) % 2 = 1 }
  let s2 ← if ir ∈ branchtable then execInstr ir s1 operand_a operand_b
    else some { s1 with out := s1.out ++ [Out.invalid ir s.pc] }
  if s2.setsPC then some s2 else some { s2 with pc := Val.add s2.pc (.vint fndInst) }

/-- `run()`, with an explicit iteration budget `n`: repeat `stepState` while
`halted` is false.  `some s` after `n` iterations means no Python exception
was raised along the way. -/
def runN : Nat → CPUState → Option CPUState
  | 0, s => some s
  | n + 1, s => if s.halted then some s else (stepState s).bind (runN n)

/-- The state after `__init__` followed by `load` with the given byte list:
everything zeroed, `reg[7] = 0xf4`, program bytes copied into `ram` from
address 0 (the rest of `ram` stays zero-filled). -/
def initState (prog : List Int) : CPUState where
  pc := .vint 0
  ram := fun i => .vint (prog.getD i.val 0)
  reg := fun i => if i = SP then .vint 0xf4 else .vint 0
  halted := false
  setsPC := false
  fl := 0
  out := []

/-- Modelled from the spec: the documented binary-op result for the seven
two-register ALU instructions (sum, difference, product, bitwise
and/or/xor, left shift) on integer register values.  This is the
specification-side function against which the code's `alu` is compared. -/
def binop (ir x y : Int) : Int :=
  if ir = ADD then x + y
  else if ir = SUB then x - y
  else if ir = MUL then x * y
  else if ir = AND then Int.land x y
  else if ir = OR then Int.lor x y
  else if ir = XOR then Int.xor x y
  else x * 2 ^ y.toNat

/-- Witness state for the conditional-jump claim: `JEQ 3` at address 0,
register 3 holding 40, the EQ flag set. -/
def c1ws : CPUState where
  pc := .vint 0
  ram := fun i => .vint ([JEQ, 3].getD i.val 0)
  reg := fun i => if i.val = 3 then .vint 40 else if i = SP then .vint 0xf4 else .vint 0
  halted := false
  setsPC := false
  fl := 1
  out := []

/-- Witness state for the CALL/RET claim: `CALL 1` at address 0 with
register 1 holding 10. -/
def c4s : CPUState where
  pc := .vint 0
  ram := fun i => .vint ([CALL, 1].getD i.val 0)
  reg := fun i => if i.val = 1 then .vint 10 else if i = SP then .vint 0xf4 else .vint 0
  halted := false
  setsPC := false
  fl := 0
  out := []

/-- Witness state for the RET half of the CALL/RET claim: `RET` at address
30, the stack pointer at 0xf3 where the return address 2 was pushed. -/
def c4t : CPUState where
  pc := .vint 30
  ram := fun i => .vint (if i.val = 30 then RET else if i.val = 0xf3 then 2 else 0)
  reg := fun i => if i = SP then .vint 0xf3 else .vint 0
  halted := false
  setsPC := false
  fl := 0
  out := []

/-- Counterexample state for the PSH/POP claim: register 0 holds 5, the
stack pointer its initial 0xf4. -/
def c5s : CPUState where
  pc := .vint 0
  ram := fun _ => .vint 0
  reg := fun i => if i.val = 0 then .vint 5 else if i = SP then .vint 0xf4 else .vint 0
  halted := false
  setsPC := false
  fl := 0
  out := []

/-- Counterexample state for the ALU frame claim: `ADD 0 0` at address 0
with register 0 holding 1. -/
def c6s : CPUState where
  pc := .vint 0
  ram := fun i => .vint ([ADD, 0, 0].getD i.val 0)
  reg := fun i => if i.val = 0 then .vint 1 else if i = SP then .vint 0xf4 else .vint 0
  halted := false
  setsPC := false
  fl := 0
  out := []

/-- Witness state for the ALU binary-op claim: `MUL 0 1` at address 0,
register 0 holding 6 and register 1 holding 7. -/
def c6w : CPUState where
  pc := .vint 0
  ram := fun i => .vint ([MUL, 0, 1].getD i.val 0)
  reg := fun i => if i.val = 0 then .vint 6 else if i.val = 1 then .vint 7
    else if i = SP then .vint 0xf4 else .vint 0
  halted := false
  setsPC := false
  fl := 0
  out := []

/-- Witness state for the unmasked-ADD claim: `ADD 0 1` at address 0,
register 0 holding 200 and register 1 holding 100. -/
def c7w : CPUState where
  pc := .vint 0
  ram := fun i => .vint ([ADD, 0, 1].getD i.val 0)
  reg := fun i => if i.val = 0 then .vint 200 else if i.val = 1 then .vint 100
    else if i = SP then .vint 0xf4 else .vint 0
  halted := false
  setsPC := false
  fl := 0
  out := []

/-- Witness state for the flag-preservation claim: `LDI 0 5` at address 0. -/
def c9s : CPUState where
  pc := .vint 0
  ram := fun i => .vint ([LDI, 0, 5].getD i.val 0)
  reg := fun i => if i = SP then .vint 0xf4 else .vint 0
  halted := false
  setsPC := false
  fl := 2
  out := []

/-- Witness state for the stack-wrap claim: `PSH 3` at address 0 with the
stack pointer at 0 and register 3 holding 42. -/
def c10w : CPUState where
  pc := .vint 0
  ram := fun i => .vint ([PSH, 3].getD i.val 0)
  reg := fun i => if i.val = 3 then .vint 42 else .vint 0
  halted := false
  setsPC := false
  fl := 0
  out := []


theorem some_bind {α β : Type} (a : α) (f : α → Option β) :
    ((some a : Option α) >>= f) = f a := rfl

theorem none_bind {α β : Type} (f : α → Option β) :
    ((none : Option α) >>= f) = none := rfl

/-- Adding two machine ints in `Val` is integer addition. -/
theorem Val.add_vint (a b : Int) :
    Val.add (.vint a) (.vint b) = .vint (a + b) := rfl

/-- Decrementing then incrementing a `Val` by one restores it (for both
ints and floats). -/
theorem Val.sub_one_add_one (v : Val) :
    Val.add (Val.sub v (.vint 1)) (.vint 1) = v := by
  cases v with
  | vint i =>
    show Val.vint (i - 1 + 1) = Val.vint i
    norm_num
  | vfloat q =>
    show Val.vfloat (q - ((1 : Int) : ℚ) + ((1 : Int) : ℚ)) = Val.vfloat q
    norm_num

theorem execInstr_HLT (s : CPUState) (a b : Val) :
    execInstr HLT s a b = hlt s a b := rfl

theorem execInstr_LDI (s : CPUState) (a b : Val) :
    execInstr LDI s a b = ldi s a b := rfl

theorem execInstr_PRN (s : CPUState) (a b : Val) :
    execInstr PRN s a b = prn s a b := rfl

theorem execInstr_MUL (s : CPUState) (a b : Val) :
    execInstr MUL s a b = mul s a b := rfl

theorem execInstr_POP (s : CPUState) (a b : Val) :
    execInstr POP s a b = pop s a b := rfl

theorem execInstr_PSH (s : CPUState) (a b : Val) :
    execInstr PSH s a b = psh s a b := rfl

theorem execInstr_CALL (s : CPUState) (a b : Val) :
    execInstr CALL s a b = call s a b := rfl

theorem execInstr_RET (s : CPUState) (a b : Val) :
    execInstr RET s a b = ret s a b := rfl

theorem execInstr_ADD (s : CPUState) (a b : Val) :
    execInstr ADD s a b = add s a b := rfl

theorem execInstr_AND (s : CPUState) (a b : Val) :
    execInstr AND s a b = andd s a b := rfl

theorem execInstr_CMP (s : CPUState) (a b : Val) :
    execInstr CMP s a b = cmp s a b := rfl

theorem execInstr_JEQ (s : CPUState) (a b : Val) :
    execInstr JEQ s a b = jeq s a b := rfl

theorem execInstr_JMP (s : CPUState) (a b : Val) :
    execInstr JMP s a b = jmp s a b := rfl

theorem execInstr_JNE (s : CPUState) (a b : Val) :
    execInstr JNE s a b = jne s a b := rfl

theorem execInstr_OR (s : CPUState) (a b : Val) :
    execInstr OR s a b = orr s a b := rfl

theorem execInstr_SHL (s : CPUState) (a b : Val) :
    execInstr SHL s a b = shl s a b := rfl

theorem execInstr_SUB (s : CPUState) (a b : Val) :
    execInstr SUB s a b = sub s a b := rfl

theorem execInstr_XOR (s : CPUState) (a b : Val) :
    execInstr XOR s a b = xor s a b := rfl

/-- One unfolding of the run-loop body once the three fetches are known
(and the fetched opcode is an int, as decode requires). -/
theorem stepState_eq {s : CPUState} {ir : Int} {av bv : Val}
    (h1 : ram_read s s.pc = some (.vint ir))
    (h2 : ram_read s (Val.add s.pc (.vint 1)) = some av)
    (h3 : ram_read s (Val.add s.pc (.vint 2)) = some bv) :
    stepState s =
      ((if ir ∈ branchtable
          then execInstr ir { s with setsPC := decide ((ir.fdiv 16) % 2 = 1) } av bv
          else some { s with setsPC := decide ((ir.fdiv 16) % 2 = 1), out := s.out ++ [Out.invalid ir s.pc] }) >>= fun s2 =>
        if s2.setsPC then some s2
        else some { s2 with pc := Val.add s2.pc (.vint ((ir.fdiv 64) % 4 + 1)) }) := by
  simp only [stepState, h1, h2, h3, some_bind, Val.toInt?]
  by_cases hm : ir ∈ branchtable
  · rw [if_pos hm, if_pos hm]
  · rw [if_neg hm, if_neg hm, some_bind]

theorem ldi_eq {s : CPUState} {a b : Val} {ia : Fin 8}
    (ha : pyIdx8 a = some ia) :
    ldi s a b = some { s with reg := Function.update s.reg ia b } := by
  simp only [ldi, ha, some_bind]

theorem prn_eq {s : CPUState} {a b : Val} {ia : Fin 8}
    (ha : pyIdx8 a = some ia) :
    prn s a b = some { s with out := s.out ++ [Out.prn (s.reg ia)] } := by
  simp only [prn, ha, some_bind]

theorem pshVal_eq {s : CPUState} {val : Val} {slot : Fin 256}
    (hs : pyIdx (Val.sub (s.reg SP) (.vint 1)) = some slot) :
    pshVal s val = some { s with reg := Function.update s.reg SP (Val.sub (s.reg SP) (.vint 1)), ram := Function.update s.ram slot val } := by
  simp only [pshVal, ram_write, Function.update_same, hs, Option.map_some']

theorem psh_eq {s : CPUState} {a b : Val} {ia : Fin 8} {slot : Fin 256}
    (ha : pyIdx8 a = some ia) (hs : pyIdx (Val.sub (s.reg SP) (.vint 1)) = some slot) :
    psh s a b = some { s with reg := Function.update s.reg SP (Val.sub (s.reg SP) (.vint 1)), ram := Function.update s.ram slot (s.reg ia) } := by
  simp only [psh, ha, some_bind, pshVal_eq hs]

theorem popVal_eq {s : CPUState} {slot : Fin 256}
    (hs : pyIdx (s.reg SP) = some slot) :
    popVal s = some (s.ram slot, { s with reg := Function.update s.reg SP (Val.add (s.reg SP) (.vint 1)) }) := by
  simp only [popVal, ram_read, hs, Option.map_some', some_bind]

theorem pop_eq {s : CPUState} {a b : Val} {ia : Fin 8} {slot : Fin 256}
    (ha : pyIdx8 a = some ia) (hs : pyIdx (s.reg SP) = some slot) :
    pop s a b = some { s with reg := Function.update (Function.update s.reg SP (Val.add (s.reg SP) (.vint 1))) ia (s.ram slot) } := by
  simp only [pop, popVal_eq hs, some_bind, ha]

theorem call_eq {s : CPUState} {a b : Val} {ia : Fin 8} {slot : Fin 256}
    (hs : pyIdx (Val.sub (s.reg SP) (.vint 1)) = some slot) (ha : pyIdx8 a = some ia) :
    call s a b = some { s with reg := Function.update s.reg SP (Val.sub (s.reg SP) (.vint 1)), ram := Function.update s.ram slot (Val.add s.pc (.vint 2)), pc := Function.update s.reg SP (Val.sub (s.reg SP) (.vint 1)) ia } := by
  simp only [call, pshVal_eq hs, some_bind, ha]

theorem ret_eq {s : CPUState} {a b : Val} {slot : Fin 256}
    (hs : pyIdx (s.reg SP) = some slot) :
    ret s a b = some { s with reg := Function.update s.reg SP (Val.add (s.reg SP) (.vint 1)), pc := s.ram slot } := by
  simp only [ret, popVal_eq hs, some_bind]

theorem jmp_eq {s : CPUState} {a b : Val} {ia : Fin 8}
    (ha : pyIdx8 a = some ia) :
    jmp s a b = some { s with pc := s.reg ia } := by
  simp only [jmp, ha, some_bind]

theorem jeq_taken_eq {s : CPUState} {a b : Val} {ia : Fin 8}
    (hf : s.fl &&& flEQ ≠ 0) (ha : pyIdx8 a = some ia) :
    jeq s a b = some { s with pc := s.reg ia } := by
  simp only [jeq, if_pos hf, ha, some_bind]

theorem jeq_skip_eq {s : CPUState} {a b : Val}
    (hf : s.fl &&& flEQ = 0) :
    jeq s a b = some { s with setsPC := false } := by
  simp only [jeq, if_neg (not_not_intro hf)]

theorem jne_taken_eq {s : CPUState} {a b : Val} {ia : Fin 8}
    (hf : s.fl &&& flEQ = 0) (ha : pyIdx8 a = some ia) :
    jne s a b = some { s with pc := s.reg ia } := by
  simp only [jne, if_pos hf, ha, some_bind]

theorem jne_skip_eq {s : CPUState} {a b : Val}
    (hf : s.fl &&& flEQ ≠ 0) :
    jne s a b = some { s with setsPC := false } := by
  simp only [jne, if_neg hf]

theorem add_eq {s : CPUState} {a b : Val} {ia ib : Fin 8}
    (ha : pyIdx8 a = some ia) (hb : pyIdx8 b = some ib) :
    add s a b = some { s with reg := Function.update s.reg ia (Val.add (s.reg ia) (s.reg ib)) } := by
  have h0 : add s a b = (pyIdx8 a >>= fun ia => pyIdx8 b >>= fun ib => some { s with reg := Function.update s.reg ia (Val.add (s.reg ia) (s.reg ib)) }) := rfl
  simp only [h0, ha, hb, some_bind]

theorem sub_eq {s : CPUState} {a b : Val} {ia ib : Fin 8}
    (ha : pyIdx8 a = some ia) (hb : pyIdx8 b = some ib) :
    sub s a b = some { s with reg := Function.update s.reg ia (Val.sub (s.reg ia) (s.reg ib)) } := by
  have h0 : sub s a b = (pyIdx8 a >>= fun ia => pyIdx8 b >>= fun ib => some { s with reg := Function.update s.reg ia (Val.sub (s.reg ia) (s.reg ib)) }) := rfl
  simp only [h0, ha, hb, some_bind]

theorem mul_eq {s : CPUState} {a b : Val} {ia ib : Fin 8}
    (ha : pyIdx8 a = some ia) (hb : pyIdx8 b = some ib) :
    mul s a b = some { s with reg := Function.update s.reg ia (Val.mul (s.reg ia) (s.reg ib)) } := by
  have h0 : mul s a b = (pyIdx8 a >>= fun ia => pyIdx8 b >>= fun ib => some { s with reg := Function.update s.reg ia (Val.mul (s.reg ia) (s.reg ib)) }) := rfl
  simp only [h0, ha, hb, some_bind]

theorem dec_eq {s : CPUState} {a b : Val} {ia : Fin 8}
    (ha : pyIdx8 a = some ia) :
    dec s a b = some { s with reg := Function.update s.reg ia (Val.sub (s.reg ia) (.vint 1)) } := by
  have h0 : dec s a b = (pyIdx8 a >>= fun ia => some { s with reg := Function.update s.reg ia (Val.sub (s.reg ia) (.vint 1)) }) := rfl
  simp only [h0, ha, some_bind]

theorem inc_eq {s : CPUState} {a b : Val} {ia : Fin 8}
    (ha : pyIdx8 a = some ia) :
    inc s a b = some { s with reg := Function.update s.reg ia (Val.add (s.reg ia) (.vint 1)) } := by
  have h0 : inc s a b = (pyIdx8 a >>= fun ia => some { s with reg := Function.update s.reg ia (Val.add (s.reg ia) (.vint 1)) }) := rfl
  simp only [h0, ha, some_bind]

theorem andd_eq {s : CPUState} {a b : Val} {ia ib : Fin 8} {x y : Int}
    (ha : pyIdx8 a = some ia) (hb : pyIdx8 b = some ib)
    (hva : s.reg ia = .vint x) (hvb : s.reg ib = .vint y) :
    andd s a b = some { s with reg := Function.update s.reg ia (.vint (Int.land x y)) } := by
  have h0 : andd s a b = (pyIdx8 a >>= fun ia => pyIdx8 b >>= fun ib => Val.land (s.reg ia) (s.reg ib) >>= fun v => some { s with reg := Function.update s.reg ia v }) := rfl
  simp only [h0, ha, hb, some_bind, hva, hvb, Val.land]

theorem orr_eq {s : CPUState} {a b : Val} {ia ib : Fin 8} {x y : Int}
    (ha : pyIdx8 a = some ia) (hb : pyIdx8 b = some ib)
    (hva : s.reg ia = .vint x) (hvb : s.reg ib = .vint y) :
    orr s a b = some { s with reg := Function.update s.reg ia (.vint (Int.lor x y)) } := by
  have h0 : orr s a b = (pyIdx8 a >>= fun ia => pyIdx8 b >>= fun ib => Val.lor (s.reg ia) (s.reg ib) >>= fun v => some { s with reg := Function.update s.reg ia v }) := rfl
  simp only [h0, ha, hb, some_bind, hva, hvb, Val.lor]

theorem xor_eq {s : CPUState} {a b : Val} {ia ib : Fin 8} {x y : Int}
    (ha : pyIdx8 a = some ia) (hb : pyIdx8 b = some ib)
    (hva : s.reg ia = .vint x) (hvb : s.reg ib = .vint y) :
    xor s a b = some { s with reg := Function.update s.reg ia (.vint (Int.xor x y)) } := by
  have h0 : xor s a b = (pyIdx8 a >>= fun ia => pyIdx8 b >>= fun ib => Val.lxor (s.reg ia) (s.reg ib) >>= fun v => some { s with reg := Function.update s.reg ia v }) := rfl
  simp only [h0, ha, hb, some_bind, hva, hvb, Val.lxor]

theorem shl_eq {s : CPUState} {a b : Val} {ia ib : Fin 8} {x y : Int}
    (ha : pyIdx8 a = some ia) (hb : pyIdx8 b = some ib)
    (hva : s.reg ia = .vint x) (hvb : s.reg ib = .vint y) (hy : 0 ≤ y) :
    shl s a b = some { s with reg := Function.update s.reg ia (.vint (x * 2 ^ y.toNat)) } := by
  have h0 : shl s a b = (pyIdx8 a >>= fun ia => pyIdx8 b >>= fun ib => Val.shl (s.reg ia) (s.reg ib) >>= fun v => some { s with reg := Function.update s.reg ia v }) := rfl
  simp only [h0, ha, hb, some_bind, hva, hvb, Val.shl, if_pos hy]

theorem cmp_eq {s : CPUState} {a b : Val} {ia ib : Fin 8}
    (ha : pyIdx8 a = some ia) (hb : pyIdx8 b = some ib) :
    cmp s a b = (if (s.reg ia).toQ < (s.reg ib).toQ then some { s with fl := (s.fl &&& 0x11111000) ||| flLT } else if (s.reg ia).toQ > (s.reg ib).toQ then some { s with fl := (s.fl &&& 0x11111000) ||| flGT } else some { s with fl := (s.fl &&& 0x11111000) ||| flEQ }) := by
  have h0 : cmp s a b = (pyIdx8 a >>= fun ia => pyIdx8 b >>= fun ib => if (s.reg ia).toQ < (s.reg ib).toQ then some { s with fl := (s.fl &&& 0x11111000) ||| flLT } else if (s.reg ia).toQ > (s.reg ib).toQ then some { s with fl := (s.fl &&& 0x11111000) ||| flGT } else some { s with fl := (s.fl &&& 0x11111000) ||| flEQ }) := rfl
  simp only [h0, ha, hb, some_bind]


theorem hlt_fl {s : CPUState} {a b : Val} {s' : CPUState}
    (h : hlt s a b = some s') : s'.fl = s.fl := by
  injection h with h
  rw [← h]

theorem ldi_fl {s : CPUState} {a b : Val} {s' : CPUState}
    (h : ldi s a b = some s') : s'.fl = s.fl := by
  cases ha : pyIdx8 a with
  | none => simp [ldi, ha, none_bind] at h
  | some ia => rw [ldi_eq ha] at h; injection h with h; rw [← h]

theorem prn_fl {s : CPUState} {a b : Val} {s' : CPUState}
    (h : prn s a b = some s') : s'.fl = s.fl := by
  cases ha : pyIdx8 a with
  | none => simp [prn, ha, none_bind] at h
  | some ia => rw [prn_eq ha] at h; injection h with h; rw [← h]

theorem jmp_fl {s : CPUState} {a b : Val} {s' : CPUState}
    (h : jmp s a b = some s') : s'.fl = s.fl := by
  cases ha : pyIdx8 a with
  | none => simp [jmp, ha, none_bind] at h
  | some ia => rw [jmp_eq ha] at h; injection h with h; rw [← h]

theorem jeq_fl {s : CPUState} {a b : Val} {s' : CPUState}
    (h : jeq s a b = some s') : s'.fl = s.fl := by
  by_cases hf : s.fl &&& flEQ ≠ 0
  · cases ha : pyIdx8 a with
    | none => simp [jeq, if_pos hf, ha, none_bind] at h
    | some ia => rw [jeq_taken_eq hf ha] at h; injection h with h; rw [← h]
  · rw [jeq_skip_eq (not_not.mp hf)] at h
    injection h with h
    rw [← h]

theorem jne_fl {s : CPUState} {a b : Val} {s' : CPUState}
    (h : jne s a b = some s') : s'.fl = s.fl := by
  by_cases hf : s.fl &&& flEQ = 0
  · cases ha : pyIdx8 a with
    | none => simp [jne, if_pos hf, ha, none_bind] at h
    | some ia => rw [jne_taken_eq hf ha] at h; injection h with h; rw [← h]
  · rw [jne_skip_eq hf] at h
    injection h with h
    rw [← h]

theorem pshVal_fl {s : CPUState} {val : Val} {s' : CPUState}
    (h : pshVal s val = some s') : s'.fl = s.fl := by
  cases hs : pyIdx (Val.sub (s.reg SP) (.vint 1)) with
  | none => simp [pshVal, ram_write, Function.update_same, hs] at h
  | some slot => rw [pshVal_eq hs] at h; injection h with h; rw [← h]

theorem psh_fl {s : CPUState} {a b : Val} {s' : CPUState}
    (h : psh s a b = some s') : s'.fl = s.fl := by
  cases ha : pyIdx8 a with
  | none => simp [psh, ha, none_bind] at h
  | some ia =>
    simp only [psh, ha, some_bind] at h
    exact pshVal_fl h

theorem popVal_fl {s : CPUState} {v : Val} {s1 : CPUState}
    (h : popVal s = some (v, s1)) : s1.fl = s.fl := by
  cases hs : pyIdx (s.reg SP) with
  | none => simp [popVal, ram_read, hs] at h
  | some slot =>
    rw [popVal_eq hs] at h
    injection h with h
    simp only [Prod.mk.injEq] at h
    rw [← h.2]

theorem pop_fl {s : CPUState} {a b : Val} {s' : CPUState}
    (h : pop s a b = some s') : s'.fl = s.fl := by
  cases hs : pyIdx (s.reg SP) with
  | none => simp [pop, popVal, ram_read, hs, none_bind] at h
  | some slot =>
    cases ha : pyIdx8 a with
    | none => simp [pop, popVal_eq hs, some_bind, ha, none_bind] at h
    | some ia => rw [pop_eq ha hs] at h; injection h with h; rw [← h]

theorem call_fl {s : CPUState} {a b : Val} {s' : CPUState}
    (h : call s a b = some s') : s'.fl = s.fl := by
  cases hs : pyIdx (Val.sub (s.reg SP) (.vint 1)) with
  | none => simp [call, pshVal, ram_write, Function.update_same, hs, none_bind] at h
  | some slot =>
    cases ha : pyIdx8 a with
    | none => simp [call, pshVal_eq hs, some_bind, ha, none_bind] at h
    | some ia => rw [call_eq hs ha] at h; injection h with h; rw [← h]

theorem ret_fl {s : CPUState} {a b : Val} {s' : CPUState}
    (h : ret s a b = some s') : s'.fl = s.fl := by
  cases hs : pyIdx (s.reg SP) with
  | none => simp [ret, popVal, ram_read, hs, none_bind] at h
  | some slot => rw [ret_eq hs] at h; injection h with h; rw [← h]

theorem add_fl {s : CPUState} {a b : Val} {s' : CPUState}
    (h : add s a b = some s') : s'.fl = s.fl := by
  have h0 : add s a b = (pyIdx8 a >>= fun ia => pyIdx8 b >>= fun ib => some { s with reg := Function.update s.reg ia (Val.add (s.reg ia) (s.reg ib)) }) := rfl
  cases ha : pyIdx8 a with
  | none => simp [h0, ha, none_bind] at h
  | some ia =>
    cases hb : pyIdx8 b with
    | none => simp [h0, ha, hb, some_bind, none_bind] at h
    | some ib => rw [add_eq ha hb] at h; injection h with h; rw [← h]

theorem sub_fl {s : CPUState} {a b : Val} {s' : CPUState}
    (h : sub s a b = some s') : s'.fl = s.fl := by
  have h0 : sub s a b = (pyIdx8 a >>= fun ia => pyIdx8 b >>= fun ib => some { s with reg := Function.update s.reg ia (Val.sub (s.reg ia) (s.reg ib)) }) := rfl
  cases ha : pyIdx8 a with
  | none => simp [h0, ha, none_bind] at h
  | some ia =>
    cases hb : pyIdx8 b with
    | none => simp [h0, ha, hb, some_bind, none_bind] at h
    | some ib => rw [sub_eq ha hb] at h; injection h with h; rw [← h]

theorem mul_fl {s : CPUState} {a b : Val} {s' : CPUState}
    (h : mul s a b = some s') : s'.fl = s.fl := by
  have h0 : mul s a b = (pyIdx8 a >>= fun ia => pyIdx8 b >>= fun ib => some { s with reg := Function.update s.reg ia (Val.mul (s.reg ia) (s.reg ib)) }) := rfl
  cases ha : pyIdx8 a with
  | none => simp [h0, ha, none_bind] at h
  | some ia =>
    cases hb : pyIdx8 b with
    | none => simp [h0, ha, hb, some_bind, none_bind] at h
    | some ib => rw [mul_eq ha hb] at h; injection h with h; rw [← h]

theorem dec_fl {s : CPUState} {a b : Val} {s' : CPUState}
    (h : dec s a b = some s') : s'.fl = s.fl := by
  cases ha : pyIdx8 a with
  | none =>
    have h0 : dec s a b = (pyIdx8 a >>= fun ia => some { s with reg := Function.update s.reg ia (Val.sub (s.reg ia) (.vint 1)) }) := rfl
    simp [h0, ha, none_bind] at h
  | some ia => rw [dec_eq ha] at h; injection h with h; rw [← h]

theorem inc_fl {s : CPUState} {a b : Val} {s' : CPUState}
    (h : inc s a b = some s') : s'.fl = s.fl := by
  cases ha : pyIdx8 a with
  | none =>
    have h0 : inc s a b = (pyIdx8 a >>= fun ia => some { s with reg := Function.update s.reg ia (Val.add (s.reg ia) (.vint 1)) }) := rfl
    simp [h0, ha, none_bind] at h
  | some ia => rw [inc_eq ha] at h; injection h with h; rw [← h]

theorem andd_fl {s : CPUState} {a b : Val} {s' : CPUState}
    (h : andd s a b = some s') : s'.fl = s.fl := by
  have h0 : andd s a b = (pyIdx8 a >>= fun ia => pyIdx8 b >>= fun ib => Val.land (s.reg ia) (s.reg ib) >>= fun v => some { s with reg := Function.update s.reg ia v }) := rfl
  cases ha : pyIdx8 a with
  | none => simp [h0, ha, none_bind] at h
  | some ia =>
    cases hb : pyIdx8 b with
    | none => simp [h0, ha, hb, some_bind, none_bind] at h
    | some ib =>
      cases hv : Val.land (s.reg ia) (s.reg ib) with
      | none => simp [h0, ha, hb, hv, some_bind, none_bind] at h
      | some v =>
        simp only [h0, ha, hb, hv, some_bind, Option.some.injEq] at h
        rw [← h]

theorem orr_fl {s : CPUState} {a b : Val} {s' : CPUState}
    (h : orr s a b = some s') : s'.fl = s.fl := by
  have h0 : orr s a b = (pyIdx8 a >>= fun ia => pyIdx8 b >>= fun ib => Val.lor (s.reg ia) (s.reg ib) >>= fun v => some { s with reg := Function.update s.reg ia v }) := rfl
  cases ha : pyIdx8 a with
  | none => simp [h0, ha, none_bind] at h
  | some ia =>
    cases hb : pyIdx8 b with
    | none => simp [h0, ha, hb, some_bind, none_bind] at h
    | some ib =>
      cases hv : Val.lor (s.reg ia) (s.reg ib) with
      | none => simp [h0, ha, hb, hv, some_bind, none_bind] at h
      | some v =>
        simp only [h0, ha, hb, hv, some_bind, Option.some.injEq] at h
        rw [← h]

theorem xor_fl {s : CPUState} {a b : Val} {s' : CPUState}
    (h : xor s a b = some s') : s'.fl = s.fl := by
  have h0 : xor s a b = (pyIdx8 a >>= fun ia => pyIdx8 b >>= fun ib => Val.lxor (s.reg ia) (s.reg ib) >>= fun v => some { s with reg := Function.update s.reg ia v }) := rfl
  cases ha : pyIdx8 a with
  | none => simp [h0, ha, none_bind] at h
  | some ia =>
    cases hb : pyIdx8 b with
    | none => simp [h0, ha, hb, some_bind, none_bind] at h
    | some ib =>
      cases hv : Val.lxor (s.reg ia) (s.reg ib) with
      | none => simp [h0, ha, hb, hv, some_bind, none_bind] at h
      | some v =>
        simp only [h0, ha, hb, hv, some_bind, Option.some.injEq] at h
        rw [← h]

theorem shl_fl {s : CPUState} {a b : Val} {s' : CPUState}
    (h : shl s a b = some s') : s'.fl = s.fl := by
  have h0 : shl s a b = (pyIdx8 a >>= fun ia => pyIdx8 b >>= fun ib => Val.shl (s.reg ia) (s.reg ib) >>= fun v => some { s with reg := Function.update s.reg ia v }) := rfl
  cases ha : pyIdx8 a with
  | none => simp [h0, ha, none_bind] at h
  | some ia =>
    cases hb : pyIdx8 b with
    | none => simp [h0, ha, hb, some_bind, none_bind] at h
    | some ib =>
      cases hv : Val.shl (s.reg ia) (s.reg ib) with
      | none => simp [h0, ha, hb, hv, some_bind, none_bind] at h
      | some v =>
        simp only [h0, ha, hb, hv, some_bind, Option.some.injEq] at h
        rw [← h]

theorem div_fl {s : CPUState} {a b : Val} {s' : CPUState}
    (h : div s a b = some s') : s'.fl = s.fl := by
  have h0 : div s a b = (pyIdx8 a >>= fun ia => pyIdx8 b >>= fun ib => Val.div (s.reg ia) (s.reg ib) >>= fun v => some { s with reg := Function.update s.reg ia v }) := rfl
  cases ha : pyIdx8 a with
  | none => simp [h0, ha, none_bind] at h
  | some ia =>
    cases hb : pyIdx8 b with
    | none => simp [h0, ha, hb, some_bind, none_bind] at h
    | some ib =>
      cases hv : Val.div (s.reg ia) (s.reg ib) with
      | none => simp [h0, ha, hb, hv, some_bind, none_bind] at h
      | some v =>
        simp only [h0, ha, hb, hv, some_bind, Option.some.injEq] at h
        rw [← h]

theorem execInstr_fl {ir : Int} {s : CPUState} {a b : Val} {s' : CPUState}
    (hne : ir ≠ CMP) (h : execInstr ir s a b = some s') : s'.fl = s.fl := by
  unfold execInstr at h
  by_cases e1 : ir = HLT
  · rw [if_pos e1] at h; exact hlt_fl h
  rw [if_neg e1] at h
  by_cases e2 : ir = LDI
  · rw [if_pos e2] at h; exact ldi_fl h
  rw [if_neg e2] at h
  by_cases e3 : ir = PRN
  · rw [if_pos e3] at h; exact prn_fl h
  rw [if_neg e3] at h
  by_cases e4 : ir = MUL
  · rw [if_pos e4] at h; exact mul_fl h
  rw [if_neg e4] at h
  by_cases e5 : ir = POP
  · rw [if_pos e5] at h; exact pop_fl h
  rw [if_neg e5] at h
  by_cases e6 : ir = PSH
  · rw [if_pos e6] at h; exact psh_fl h
  rw [if_neg e6] at h
  by_cases e7 : ir = CALL
  · rw [if_pos e7] at h; exact call_fl h
  rw [if_neg e7] at h
  by_cases e8 : ir = RET
  · rw [if_pos e8] at h; exact ret_fl h
  rw [if_neg e8] at h
  by_cases e9 : ir = ADD
  · rw [if_pos e9] at h; exact add_fl h
  rw [if_neg e9] at h
  by_cases e10 : ir = AND
  · rw [if_pos e10] at h; exact andd_fl h
  rw [if_neg e10] at h
  by_cases e11 : ir = CMP
  · exact absurd e11 hne
  rw [if_neg e11] at h
  by_cases e12 : ir = DEC
  · rw [if_pos e12] at h; exact dec_fl h
  rw [if_neg e12] at h
  by_cases e13 : ir = DIV
  · rw [if_pos e13] at h; exact div_fl h
  rw [if_neg e13] at h
  by_cases e14 : ir = INC
  · rw [if_pos e14] at h; exact inc_fl h
  rw [if_neg e14] at h
  by_cases e15 : ir = JEQ
  · rw [if_pos e15] at h; exact jeq_fl h
  rw [if_neg e15] at h
  by_cases e16 : ir = JMP
  · rw [if_pos e16] at h; exact jmp_fl h
  rw [if_neg e16] at h
  by_cases e17 : ir = JNE
  · rw [if_pos e17] at h; exact jne_fl h
  rw [if_neg e17] at h
  by_cases e18 : ir = OR
  · rw [if_pos e18] at h; exact orr_fl h
  rw [if_neg e18] at h
  by_cases e19 : ir = SHL
  · rw [if_pos e19] at h; exact shl_fl h
  rw [if_neg e19] at h
  by_cases e20 : ir = SUB
  · rw [if_pos e20] at h; exact sub_fl h
  rw [if_neg e20] at h
  by_cases e21 : ir = XOR
  · rw [if_pos e21] at h; exact xor_fl h
  rw [if_neg e21] at h
  exact Option.noConfusion h

set_option maxHeartbeats 1000000 in
/-- Claim C9: every loop iteration whose fetched opcode byte is not CMP —
every other wired handler, DIV included, and the unknown-opcode path —
leaves the flags bitset unchanged; only the compare operation ever modifies
the flags. -/
theorem non_cmp_preserves_flags (s : CPUState) (ir : Int) (s' : CPUState)
    (h1 : ram_read s s.pc = some (.vint ir)) (hne : ir ≠ CMP)
    (h : stepState s = some s') : s'.fl = s.fl := by
  cases ha : ram_read s (Val.add s.pc (.vint 1)) with
  | none =>
    simp only [stepState, h1, ha, some_bind, none_bind] at h
    exact Option.noConfusion h
  | some av =>
  cases hb : ram_read s (Val.add s.pc (.vint 2)) with
  | none =>
    simp only [stepState, h1, ha, hb, some_bind, none_bind] at h
    exact Option.noConfusion h
  | some bv =>
    rw [stepState_eq h1 ha hb] at h
    by_cases hm : ir ∈ branchtable
    · rw [if_pos hm] at h
      cases hx : execInstr ir { s with setsPC := decide ((ir.fdiv 16) % 2 = 1) } av bv with
      | none => rw [hx, none_bind] at h; exact Option.noConfusion h
      | some s2 =>
        rw [hx, some_bind] at h
        have h2 : s2.fl = s.fl :=
          @execInstr_fl ir { s with setsPC := decide ((ir.fdiv 16) % 2 = 1) } av bv s2 hne hx
        split_ifs at h with hc
        · injection h with h; rw [← h]; exact h2
        · injection h with h; rw [← h]; exact h2
    · rw [if_neg hm, some_bind] at h
      split_ifs at h with hc
      · injection h with h; rw [← h]
      · injection h with h; rw [← h]


/-- Claim C1 (corrected): executing JEQ (or JNE) jumps to the address held
in the named register iff the EQ flag state matches the instruction's
condition (EQ set for JEQ, EQ clear for JNE); when the branch is not taken
the program counter advances by exactly 2 bytes past the instruction
(1 opcode + 1 operand byte) — not 3 as the claim states, since bits 6-7 of
JEQ/JNE (0b01) encode a single operand byte. -/
theorem jeq_jne_branch (s : CPUState) (ir : Int) (av bv : Val)
    (hj : ir = JEQ ∨ ir = JNE)
    (h1 : ram_read s s.pc = some (.vint ir))
    (h2 : ram_read s (Val.add s.pc (.vint 1)) = some av)
    (h3 : ram_read s (Val.add s.pc (.vint 2)) = some bv) :
    ((if ir = JEQ then s.fl &&& flEQ ≠ 0 else s.fl &&& flEQ = 0) →
      ∀ ia : Fin 8, pyIdx8 av = some ia →
        stepState s = some { s with setsPC := true, pc := s.reg ia }) ∧
    (¬(if ir = JEQ then s.fl &&& flEQ ≠ 0 else s.fl &&& flEQ = 0) →
      stepState s = some { s with setsPC := false, pc := Val.add s.pc (.vint 2) }) := by
  rcases hj with rfl | rfl
  · rw [if_pos rfl]
    constructor
    · intro ht ia hia
      rw [stepState_eq h1 h2 h3, if_pos (by decide : JEQ ∈ branchtable),
        execInstr_JEQ]
      set s1 : CPUState := { s with setsPC := decide ((JEQ.fdiv 16) % 2 = 1) }
      rw [jeq_taken_eq (show s1.fl &&& flEQ ≠ 0 from ht) hia, some_bind]
      rfl
    · intro ht
      rw [not_not] at ht
      rw [stepState_eq h1 h2 h3, if_pos (by decide : JEQ ∈ branchtable),
        execInstr_JEQ]
      set s1 : CPUState := { s with setsPC := decide ((JEQ.fdiv 16) % 2 = 1) }
      rw [jeq_skip_eq (show s1.fl &&& flEQ = 0 from ht), some_bind]
      rfl
  · rw [if_neg (by decide : ¬(JNE = JEQ))]
    constructor
    · intro ht ia hia
      rw [stepState_eq h1 h2 h3, if_pos (by decide : JNE ∈ branchtable),
        execInstr_JNE]
      set s1 : CPUState := { s with setsPC := decide ((JNE.fdiv 16) % 2 = 1) }
      rw [jne_taken_eq (show s1.fl &&& flEQ = 0 from ht) hia, some_bind]
      rfl
    · intro ht
      rw [stepState_eq h1 h2 h3, if_pos (by decide : JNE ∈ branchtable),
        execInstr_JNE]
      set s1 : CPUState := { s with setsPC := decide ((JNE.fdiv 16) % 2 = 1) }
      rw [jne_skip_eq (show s1.fl &&& flEQ ≠ 0 from ht), some_bind]
      rfl

/-- Claim C1, counterexample to the claim as stated: a not-taken JEQ at
address 0 leaves the program counter at 2, whereas the claim requires an
advance of exactly 3 bytes. -/
theorem jeq_not_taken_cex :
    (stepState (initState [JEQ, 0, 0])).map CPUState.pc = some (.vint 2) ∧
    (2 : Int) ≠ 0 + 3 := ⟨by decide, by decide⟩

/-- Claim C1, witness: a taken JEQ with the EQ flag set and operand
register 3 holding 40 jumps there. -/
theorem jeq_jne_branch_witness :
    stepState c1ws = some { c1ws with setsPC := true, pc := c1ws.reg 3 } :=
  (jeq_jne_branch c1ws JEQ (.vint 3) (.vint 0) (Or.inl rfl) (by decide)
    (by decide) (by decide)).1 (by decide) 3 (by decide)

/-- Claim C2 (corrected): one loop iteration on an opcode byte absent from
the dispatch table emits the diagnostic and leaves memory, registers, flags
and the halted bit unchanged; the program counter advances by 1 plus the
operand count decoded from bits 6-7 only when bit 4 of the byte is clear —
when bit 4 is set the handler-only reset of the "sets program counter" flag
never happens and the program counter stays put, contrary to the claim. -/
theorem unknown_opcode_spec (s : CPUState) (ir : Int) (av bv : Val)
    (h1 : ram_read s s.pc = some (.vint ir))
    (h2 : ram_read s (Val.add s.pc (.vint 1)) = some av)
    (h3 : ram_read s (Val.add s.pc (.vint 2)) = some bv)
    (hm : ir ∉ branchtable) :
    ∃ s', stepState s = some s' ∧ s'.ram = s.ram ∧ s'.reg = s.reg ∧
      s'.fl = s.fl ∧ s'.halted = s.halted ∧
      s'.out = s.out ++ [Out.invalid ir s.pc] ∧
      s'.pc = (if (ir.fdiv 16) % 2 = 1 then s.pc else Val.add s.pc (.vint ((ir.fdiv 64) % 4 + 1))) := by
  rw [stepState_eq h1 h2 h3, if_neg hm, some_bind]
  set s1 : CPUState := { s with setsPC := decide ((ir.fdiv 16) % 2 = 1), out := s.out ++ [Out.invalid ir s.pc] } with hs1
  by_cases hb4 : (ir.fdiv 16) % 2 = 1
  · rw [if_pos (show s1.setsPC = true from decide_eq_true hb4), if_pos hb4]
    exact ⟨_, rfl, rfl, rfl, rfl, rfl, rfl, rfl⟩
  · rw [if_neg (show ¬(s1.setsPC = true) from fun hh => hb4 (of_decide_eq_true hh)),
      if_neg hb4]
    exact ⟨_, rfl, rfl, rfl, rfl, rfl, rfl, rfl⟩

/-- Claim C2, counterexample to the claim as stated: unknown opcode 0xFF
(bit 4 set) leaves the program counter at 0 instead of advancing it by
1 plus the decoded operand count. -/
theorem unknown_opcode_cex :
    (stepState (initState [255])).map CPUState.pc = some (.vint 0) ∧
    (0 : Int) ≠ 0 + (((255 : Int).fdiv 64) % 4 + 1) := ⟨by decide, by decide⟩

/-- Claim C2, witness: unknown opcode 0xAF (bit 4 clear) emits the
diagnostic, changes no machine state, and advances the program counter. -/
theorem unknown_opcode_spec_witness :
    ∃ s', stepState (initState [0xAF]) = some s' ∧
      s'.ram = (initState [0xAF]).ram ∧ s'.reg = (initState [0xAF]).reg ∧
      s'.fl = (initState [0xAF]).fl ∧ s'.halted = (initState [0xAF]).halted ∧
      s'.out = (initState [0xAF]).out ++ [Out.invalid 0xAF (initState [0xAF]).pc] ∧
      s'.pc = (if ((0xAF : Int).fdiv 16) % 2 = 1 then (initState [0xAF]).pc else Val.add (initState [0xAF]).pc (.vint (((0xAF : Int).fdiv 64) % 4 + 1))) :=
  unknown_opcode_spec (initState [0xAF]) 0xAF (.vint 0) (.vint 0) (by decide)
    (by decide) (by decide) (by decide)

set_option maxHeartbeats 800000 in
/-- Claim C3: executing CMP leaves every register unchanged and sets the
flag bitset so that exactly one of LT (bit 2), GT (bit 1), EQ (bit 0) is
set and the other two are clear, the set flag agreeing with the numeric
ordering of the two compared register values. -/
theorem cmp_spec (s : CPUState) (av bv : Val) (ia ib : Fin 8)
    (h1 : ram_read s s.pc = some (.vint CMP))
    (h2 : ram_read s (Val.add s.pc (.vint 1)) = some av)
    (h3 : ram_read s (Val.add s.pc (.vint 2)) = some bv)
    (ha : pyIdx8 av = some ia) (hb : pyIdx8 bv = some ib) :
    ∃ s', stepState s = some s' ∧ s'.reg = s.reg ∧
      (s'.fl.testBit 2 = true ↔ (s.reg ia).toQ < (s.reg ib).toQ) ∧
      (s'.fl.testBit 1 = true ↔ (s.reg ib).toQ < (s.reg ia).toQ) ∧
      (s'.fl.testBit 0 = true ↔ (s.reg ia).toQ = (s.reg ib).toQ) := by
  rw [stepState_eq h1 h2 h3, if_pos (by decide : CMP ∈ branchtable), execInstr_CMP]
  set s1 : CPUState := { s with setsPC := decide ((CMP.fdiv 16) % 2 = 1) } with hs1
  rw [cmp_eq ha hb]
  have m0 : (0x11111000 : Nat).testBit 0 = false := by decide
  have m1 : (0x11111000 : Nat).testBit 1 = false := by decide
  have m2 : (0x11111000 : Nat).testBit 2 = false := by decide
  have t42 : Nat.testBit 4 2 = true := by decide
  have t41 : Nat.testBit 4 1 = false := by decide
  have t40 : Nat.testBit 4 0 = false := by decide
  have t22 : Nat.testBit 2 2 = false := by decide
  have t21 : Nat.testBit 2 1 = true := by decide
  have t20 : Nat.testBit 2 0 = false := by decide
  have t12 : Nat.testBit 1 2 = false := by decide
  have t11 : Nat.testBit 1 1 = false := by decide
  have t10 : Nat.testBit 1 0 = true := by decide
  rcases lt_trichotomy ((s.reg ia).toQ) ((s.reg ib).toQ) with hlt | heq | hgt
  · rw [if_pos (show (s1.reg ia).toQ < (s1.reg ib).toQ from hlt), some_bind]
    have hn1 : ¬((s.reg ib).toQ < (s.reg ia).toQ) := lt_asymm hlt
    have hn2 : ¬((s.reg ia).toQ = (s.reg ib).toQ) := ne_of_lt hlt
    refine ⟨_, rfl, rfl, ?_, ?_, ?_⟩
    · simp [Nat.testBit_lor, Nat.testBit_land, m2, flLT, t42, hlt]
    · simp [Nat.testBit_lor, Nat.testBit_land, m1, flLT, t41, hn1]
    · simp [Nat.testBit_lor, Nat.testBit_land, m0, flLT, t40, hn2]
  · have hn1 : ¬((s.reg ia).toQ < (s.reg ib).toQ) := by simp [heq]
    have hn2 : ¬((s.reg ib).toQ < (s.reg ia).toQ) := by simp [heq]
    rw [if_neg (show ¬((s1.reg ia).toQ < (s1.reg ib).toQ) from hn1),
      if_neg (show ¬((s1.reg ia).toQ > (s1.reg ib).toQ) from hn2), some_bind]
    refine ⟨_, rfl, rfl, ?_, ?_, ?_⟩
    · simp [Nat.testBit_lor, Nat.testBit_land, m2, flEQ, t12, hn1]
    · simp [Nat.testBit_lor, Nat.testBit_land, m1, flEQ, t11, hn2]
    · simp [Nat.testBit_lor, Nat.testBit_land, m0, flEQ, t10, heq]
  · have hn1 : ¬((s.reg ia).toQ < (s.reg ib).toQ) := lt_asymm hgt
    have hn2 : ¬((s.reg ia).toQ = (s.reg ib).toQ) := ne_of_gt hgt
    rw [if_neg (show ¬((s1.reg ia).toQ < (s1.reg ib).toQ) from hn1),
      if_pos (show (s1.reg ia).toQ > (s1.reg ib).toQ from hgt), some_bind]
    refine ⟨_, rfl, rfl, ?_, ?_, ?_⟩
    · simp [Nat.testBit_lor, Nat.testBit_land, m2, flGT, t22, hn1]
    · simp [Nat.testBit_lor, Nat.testBit_land, m1, flGT, t21, hgt]
    · simp [Nat.testBit_lor, Nat.testBit_land, m0, flGT, t20, hn2]

/-- Claim C3, witness: CMP on two equal registers of the initial state. -/
theorem cmp_spec_witness :
    ∃ s', stepState (initState [CMP, 0, 1]) = some s' ∧
      s'.reg = (initState [CMP, 0, 1]).reg ∧
      (s'.fl.testBit 2 = true ↔ ((initState [CMP, 0, 1]).reg 0).toQ < ((initState [CMP, 0, 1]).reg 1).toQ) ∧
      (s'.fl.testBit 1 = true ↔ ((initState [CMP, 0, 1]).reg 1).toQ < ((initState [CMP, 0, 1]).reg 0).toQ) ∧
      (s'.fl.testBit 0 = true ↔ ((initState [CMP, 0, 1]).reg 0).toQ = ((initState [CMP, 0, 1]).reg 1).toQ) :=
  cmp_spec (initState [CMP, 0, 1]) (.vint 0) (.vint 1) 0 1 (by decide) (by decide)
    (by decide) (by decide) (by decide)


/-- Claim C4: executing CALL pushes a return address equal to the address
of the CALL instruction plus 2 and sets the program counter to the address
held in the named register (read after the push, as the source does); a
subsequently executed RET with the stack pointer back at that slot, the
pushed address still there, sets the program counter to exactly that
address. -/
theorem call_ret_spec (s : CPUState) (av bv : Val) (ia : Fin 8) (slot : Fin 256)
    (h1 : ram_read s s.pc = some (.vint CALL))
    (h2 : ram_read s (Val.add s.pc (.vint 1)) = some av)
    (h3 : ram_read s (Val.add s.pc (.vint 2)) = some bv)
    (ha : pyIdx8 av = some ia)
    (hw : pyIdx (Val.sub (s.reg SP) (.vint 1)) = some slot) :
    (∃ s1, stepState s = some s1 ∧ s1.reg SP = Val.sub (s.reg SP) (.vint 1) ∧
      ram_read s1 (s1.reg SP) = some (Val.add s.pc (.vint 2)) ∧ s1.pc = s1.reg ia) ∧
    (∀ (t : CPUState) (cv dv : Val),
      ram_read t t.pc = some (.vint RET) → ram_read t (Val.add t.pc (.vint 1)) = some cv →
      ram_read t (Val.add t.pc (.vint 2)) = some dv →
      ram_read t (t.reg SP) = some (Val.add s.pc (.vint 2)) →
      ∃ t1, stepState t = some t1 ∧ t1.pc = Val.add s.pc (.vint 2)) := by
  constructor
  · rw [stepState_eq h1 h2 h3, if_pos (by decide : CALL ∈ branchtable), execInstr_CALL]
    set s1 : CPUState := { s with setsPC := decide ((CALL.fdiv 16) % 2 = 1) } with hs1
    rw [call_eq (show pyIdx (Val.sub (s1.reg SP) (.vint 1)) = some slot from hw) ha, some_bind]
    refine ⟨_, rfl, ?_, ?_, rfl⟩
    · show Function.update s.reg SP (Val.sub (s.reg SP) (.vint 1)) SP = Val.sub (s.reg SP) (.vint 1)
      exact Function.update_same _ _ _
    · show ram_read _ (Function.update s.reg SP (Val.sub (s.reg SP) (.vint 1)) SP) = some (Val.add s.pc (.vint 2))
      rw [Function.update_same]
      simp only [ram_read, hw, Option.map_some', Option.some.injEq]
      show Function.update s.ram slot (Val.add s.pc (.vint 2)) slot = Val.add s.pc (.vint 2)
      exact Function.update_same _ _ _
  · intro t cv dv k1 k2 k3 k4
    cases ht : pyIdx (t.reg SP) with
    | none =>
      simp only [ram_read, ht, Option.map_none'] at k4
      exact Option.noConfusion k4
    | some tslot =>
      have hval : t.ram tslot = Val.add s.pc (.vint 2) := by
        simp only [ram_read, ht, Option.map_some', Option.some.injEq] at k4
        exact k4
      rw [stepState_eq k1 k2 k3, if_pos (by decide : RET ∈ branchtable), execInstr_RET]
      set t1 : CPUState := { t with setsPC := decide ((RET.fdiv 16) % 2 = 1) } with ht1
      rw [ret_eq (show pyIdx (t1.reg SP) = some tslot from ht), some_bind]
      exact ⟨_, rfl, hval⟩

/-- Claim C4, witness: CALL through register 1 pushes the return address 2
at 0xf3 and jumps to 10; a RET at address 30 with the stack pointer at 0xf3
returns to 2. -/
theorem call_ret_spec_witness :
    (∃ s1, stepState c4s = some s1 ∧ s1.reg SP = Val.sub (c4s.reg SP) (.vint 1) ∧
      ram_read s1 (s1.reg SP) = some (Val.add c4s.pc (.vint 2)) ∧ s1.pc = s1.reg 1) ∧
    (∃ t1, stepState c4t = some t1 ∧ t1.pc = Val.add c4s.pc (.vint 2)) := by
  have W := call_ret_spec c4s (.vint 1) (.vint 0) 1 ⟨243, by norm_num⟩ (by decide)
    (by decide) (by decide) (by decide) (by decide)
  exact ⟨W.1, W.2 c4t (.vint 0) (.vint 0) (by decide) (by decide) (by decide) (by decide)⟩

/-- Claim C5 (corrected): executing PSH r1 immediately followed by POP r2
leaves register r2 holding the value register r1 held before the pair and
restores the stack pointer — provided r2 is not register 7 itself: popping
into the stack-pointer register overwrites it with the popped value. -/
theorem psh_pop_roundtrip (s : CPUState) (r1 r2 b1 b2 : Val) (i1 i2 : Fin 8) (slot : Fin 256)
    (h1 : pyIdx8 r1 = some i1) (h2 : pyIdx8 r2 = some i2)
    (hs : pyIdx (Val.sub (s.reg SP) (.vint 1)) = some slot)
    (hne : i2 ≠ SP) :
    ∃ s2, (psh s r1 b1 >>= fun s1 => pop s1 r2 b2) = some s2 ∧
      s2.reg i2 = s.reg i1 ∧ s2.reg SP = s.reg SP := by
  rw [psh_eq h1 hs, some_bind]
  set s1 : CPUState := { s with reg := Function.update s.reg SP (Val.sub (s.reg SP) (.vint 1)), ram := Function.update s.ram slot (s.reg i1) } with hs1
  have hsp : s1.reg SP = Val.sub (s.reg SP) (.vint 1) := by
    show Function.update s.reg SP (Val.sub (s.reg SP) (.vint 1)) SP = Val.sub (s.reg SP) (.vint 1)
    exact Function.update_same _ _ _
  have hs' : pyIdx (s1.reg SP) = some slot := by rw [hsp]; exact hs
  rw [pop_eq h2 hs']
  refine ⟨_, rfl, ?_, ?_⟩
  · show Function.update (Function.update s1.reg SP (Val.add (s1.reg SP) (.vint 1))) i2 (s1.ram slot) i2 = s.reg i1
    rw [Function.update_same]
    show Function.update s.ram slot (s.reg i1) slot = s.reg i1
    exact Function.update_same _ _ _
  · show Function.update (Function.update s1.reg SP (Val.add (s1.reg SP) (.vint 1))) i2 (s1.ram slot) SP = s.reg SP
    rw [Function.update_noteq (Ne.symm hne), Function.update_same, hsp,
      Val.sub_one_add_one]

/-- Claim C5, counterexample to the claim as stated: PSH 0 then POP 7 on a
state with register 0 holding 5 leaves the stack pointer holding 5, not its
original 0xf4. -/
theorem psh_pop_sp_cex :
    ((psh c5s (.vint 0) (.vint 0) >>= fun s1 => pop s1 (.vint 7) (.vint 0)).map (fun s => s.reg SP) = some (.vint 5)) ∧
    (5 : Int) ≠ 0xf4 := ⟨by decide, by decide⟩

/-- Claim C5, witness: PSH 0 then POP 1 on the initial state round-trips
the value and restores the stack pointer. -/
theorem psh_pop_roundtrip_witness :
    ∃ s2, (psh (initState []) (.vint 0) (.vint 0) >>= fun s1 => pop s1 (.vint 1) (.vint 0)) = some s2 ∧
      s2.reg 1 = (initState []).reg 0 ∧ s2.reg SP = (initState []).reg SP :=
  psh_pop_roundtrip (initState []) (.vint 0) (.vint 1) (.vint 0) (.vint 0) 0 1
    ⟨243, by norm_num⟩ (by decide) (by decide) (by decide) (by decide)


/-- Claim C6 (corrected): executing any of ADD, SUB, MUL, AND, OR, XOR,
SHL on register indices (a, b) holding int values x and y updates register
a to the documented binary-op result of x and y and leaves register b
unchanged — provided b is a different register from a; when a = b the
register holds the op result (e.g. doubled for ADD), not its old value.
Only for SHL is the shift amount y required non-negative (a negative shift
amount raises in the source); the other six operations carry no such
restriction. -/
theorem alu_binop_spec (s : CPUState) (ir : Int) (av bv : Val) (ia ib : Fin 8) (x y : Int)
    (hop : ir = ADD ∨ ir = SUB ∨ ir = MUL ∨ ir = AND ∨ ir = OR ∨ ir = XOR ∨ ir = SHL)
    (h1 : ram_read s s.pc = some (.vint ir))
    (h2 : ram_read s (Val.add s.pc (.vint 1)) = some av)
    (h3 : ram_read s (Val.add s.pc (.vint 2)) = some bv)
    (ha : pyIdx8 av = some ia) (hb : pyIdx8 bv = some ib)
    (hva : s.reg ia = .vint x) (hvb : s.reg ib = .vint y)
    (hne : ib ≠ ia) (hy : ir = SHL → 0 ≤ y) :
    ∃ s', stepState s = some s' ∧ s'.reg ia = .vint (binop ir x y) ∧
      s'.reg ib = s.reg ib := by
  rcases hop with rfl | rfl | rfl | rfl | rfl | rfl | rfl
  · rw [stepState_eq h1 h2 h3, if_pos (by decide : ADD ∈ branchtable),
      execInstr_ADD, add_eq ha hb, some_bind]
    refine ⟨_, rfl, ?_, ?_⟩
    · show Function.update s.reg ia (Val.add (s.reg ia) (s.reg ib)) ia = .vint (binop ADD x y)
      rw [Function.update_same, hva, hvb]
      rfl
    · show Function.update s.reg ia (Val.add (s.reg ia) (s.reg ib)) ib = s.reg ib
      exact Function.update_noteq hne _ _
  · rw [stepState_eq h1 h2 h3, if_pos (by decide : SUB ∈ branchtable),
      execInstr_SUB, sub_eq ha hb, some_bind]
    refine ⟨_, rfl, ?_, ?_⟩
    · show Function.update s.reg ia (Val.sub (s.reg ia) (s.reg ib)) ia = .vint (binop SUB x y)
      rw [Function.update_same, hva, hvb]
      rfl
    · show Function.update s.reg ia (Val.sub (s.reg ia) (s.reg ib)) ib = s.reg ib
      exact Function.update_noteq hne _ _
  · rw [stepState_eq h1 h2 h3, if_pos (by decide : MUL ∈ branchtable),
      execInstr_MUL, mul_eq ha hb, some_bind]
    refine ⟨_, rfl, ?_, ?_⟩
    · show Function.update s.reg ia (Val.mul (s.reg ia) (s.reg ib)) ia = .vint (binop MUL x y)
      rw [Function.update_same, hva, hvb]
      rfl
    · show Function.update s.reg ia (Val.mul (s.reg ia) (s.reg ib)) ib = s.reg ib
      exact Function.update_noteq hne _ _
  · rw [stepState_eq h1 h2 h3, if_pos (by decide : AND ∈ branchtable),
      execInstr_AND]
    set s1 : CPUState := { s with setsPC := decide ((AND.fdiv 16) % 2 = 1) }
    rw [andd_eq ha hb (show s1.reg ia = .vint x from hva)
      (show s1.reg ib = .vint y from hvb), some_bind]
    refine ⟨_, rfl, ?_, ?_⟩
    · show Function.update s.reg ia (.vint (Int.land x y)) ia = .vint (binop AND x y)
      rw [Function.update_same]
      rfl
    · show Function.update s.reg ia (.vint (Int.land x y)) ib = s.reg ib
      exact Function.update_noteq hne _ _
  · rw [stepState_eq h1 h2 h3, if_pos (by decide : OR ∈ branchtable),
      execInstr_OR]
    set s1 : CPUState := { s with setsPC := decide ((OR.fdiv 16) % 2 = 1) }
    rw [orr_eq ha hb (show s1.reg ia = .vint x from hva)
      (show s1.reg ib = .vint y from hvb), some_bind]
    refine ⟨_, rfl, ?_, ?_⟩
    · show Function.update s.reg ia (.vint (Int.lor x y)) ia = .vint (binop OR x y)
      rw [Function.update_same]
      rfl
    · show Function.update s.reg ia (.vint (Int.lor x y)) ib = s.reg ib
      exact Function.update_noteq hne _ _
  · rw [stepState_eq h1 h2 h3, if_pos (by decide : XOR ∈ branchtable),
      execInstr_XOR]
    set s1 : CPUState := { s with setsPC := decide ((XOR.fdiv 16) % 2 = 1) }
    rw [xor_eq ha hb (show s1.reg ia = .vint x from hva)
      (show s1.reg ib = .vint y from hvb), some_bind]
    refine ⟨_, rfl, ?_, ?_⟩
    · show Function.update s.reg ia (.vint (Int.xor x y)) ia = .vint (binop XOR x y)
      rw [Function.update_same]
      rfl
    · show Function.update s.reg ia (.vint (Int.xor x y)) ib = s.reg ib
      exact Function.update_noteq hne _ _
  · rw [stepState_eq h1 h2 h3, if_pos (by decide : SHL ∈ branchtable),
      execInstr_SHL]
    set s1 : CPUState := { s with setsPC := decide ((SHL.fdiv 16) % 2 = 1) }
    rw [shl_eq ha hb (show s1.reg ia = .vint x from hva)
      (show s1.reg ib = .vint y from hvb) (hy rfl), some_bind]
    refine ⟨_, rfl, ?_, ?_⟩
    · show Function.update s.reg ia (.vint (x * 2 ^ y.toNat)) ia = .vint (binop SHL x y)
      rw [Function.update_same]
      rfl
    · show Function.update s.reg ia (.vint (x * 2 ^ y.toNat)) ib = s.reg ib
      exact Function.update_noteq hne _ _

/-- Claim C6, counterexample to the claim as stated: ADD 0 0 on a state
with register 0 holding 1 leaves register b (= register 0) holding 2, not
unchanged. -/
theorem alu_same_reg_cex :
    (stepState c6s).map (fun s => s.reg 0) = some (.vint 2) ∧ (2 : Int) ≠ 1 :=
  ⟨by decide, by decide⟩

/-- Claim C6, witness: MUL 0 1 with registers holding 6 and 7; a negative
second operand is exercised by the SUB/ADD cases, whose hypotheses do not
restrict the sign of y. -/
theorem alu_binop_spec_witness :
    ∃ s', stepState c6w = some s' ∧
      s'.reg 0 = .vint (binop MUL 6 7) ∧ s'.reg 1 = c6w.reg 1 :=
  alu_binop_spec c6w MUL (.vint 0) (.vint 1) 0 1 6 7
    (Or.inr (Or.inr (Or.inl rfl))) (by decide) (by decide) (by decide)
    (by decide) (by decide) (by decide) (by decide) (by decide) (by decide)

/-- Claim C7 (corrected): register values are not masked to 8 bits.  What
holds instead of the claimed [0,255] invariant: executing ADD on registers
holding int values in [0,255] stores their exact unmasked sum, which lies
in [0,510] and can therefore exceed 255. -/
theorem add_unmasked_bound (s : CPUState) (av bv : Val) (ia ib : Fin 8) (x y : Int)
    (h1 : ram_read s s.pc = some (.vint ADD))
    (h2 : ram_read s (Val.add s.pc (.vint 1)) = some av)
    (h3 : ram_read s (Val.add s.pc (.vint 2)) = some bv)
    (ha : pyIdx8 av = some ia) (hb : pyIdx8 bv = some ib)
    (hva : s.reg ia = .vint x) (hvb : s.reg ib = .vint y)
    (hx0 : 0 ≤ x) (hx1 : x ≤ 255) (hy0 : 0 ≤ y) (hy1 : y ≤ 255) :
    ∃ s', stepState s = some s' ∧ s'.reg ia = .vint (x + y) ∧
      0 ≤ x + y ∧ x + y ≤ 510 := by
  rw [stepState_eq h1 h2 h3, if_pos (by decide : ADD ∈ branchtable),
    execInstr_ADD, add_eq ha hb, some_bind]
  refine ⟨_, rfl, ?_, by omega, by omega⟩
  show Function.update s.reg ia (Val.add (s.reg ia) (s.reg ib)) ia = .vint (x + y)
  rw [Function.update_same, hva, hvb]
  rfl

/-- Claim C7, counterexample to the claim as stated: the program
LDI 0,255; LDI 1,1; ADD 0,1 reaches a state whose register 0 holds 256,
outside [0,255]. -/
theorem reg_overflow_cex :
    (runN 3 (initState [LDI, 0, 255, LDI, 1, 1, ADD, 0, 1, HLT])).map (fun s => s.reg 0) = some (.vint 256) ∧
    ¬((256 : Int) ≤ 255) := ⟨by decide, by decide⟩

/-- Claim C7, witness: ADD on registers holding 200 and 100 stores 300. -/
theorem add_unmasked_bound_witness :
    ∃ s', stepState c7w = some s' ∧ s'.reg 0 = .vint (200 + 100) ∧
      0 ≤ (200 : Int) + 100 ∧ (200 : Int) + 100 ≤ 510 :=
  add_unmasked_bound c7w (.vint 0) (.vint 1) 0 1 200 100 (by decide) (by decide)
    (by decide) (by decide) (by decide) (by decide) (by decide) (by decide)
    (by decide) (by decide) (by decide)

/-- Claim C8 (corrected): for a non-halted state whose program counter is
an int p with 0 ≤ p and p + 2 < 256, the run loop's three fetches all
succeed, and memory addresses beyond the loaded program read the zero-fill
value 0; but the claim's "always" is false — with p ≥ 254 (reachable via
JMP) the operand read at p + 2 indexes past the 256-byte list and raises
IndexError. -/
theorem fetch_reads_ok (s : CPUState) (p : Int) (prog : List Int) (i : Fin 256)
    (hh : s.halted = false) (hpc : s.pc = .vint p) (hp0 : 0 ≤ p) (hp : p + 2 < 256)
    (hi : prog.length ≤ i.val) :
    ((ram_read s s.pc).isSome = true ∧
      (ram_read s (Val.add s.pc (.vint 1))).isSome = true ∧
      (ram_read s (Val.add s.pc (.vint 2))).isSome = true) ∧
    (initState prog).ram i = .vint 0 := by
  refine ⟨⟨?_, ?_, ?_⟩, ?_⟩
  · have c : -256 ≤ p ∧ p < 256 := by omega
    rw [hpc]
    simp only [ram_read, pyIdx]
    rw [if_pos c]
    simp
  · have c : -256 ≤ p + 1 ∧ p + 1 < 256 := by omega
    rw [hpc, Val.add_vint]
    simp only [ram_read, pyIdx]
    rw [if_pos c]
    simp
  · have c : -256 ≤ p + 2 ∧ p + 2 < 256 := by omega
    rw [hpc, Val.add_vint]
    simp only [ram_read, pyIdx]
    rw [if_pos c]
    simp
  · show Val.vint (prog.getD i.val 0) = Val.vint 0
    rw [List.getD_eq_default _ _ hi]

/-- Claim C8, counterexample to the claim as stated: LDI 0,255; JMP 0
reaches a non-halted state with pc = 255, and the next iteration's operand
read at address 257 faults (the run returns none). -/
theorem fetch_read_fault_cex :
    (runN 2 (initState [LDI, 0, 255, JMP, 0])).map (fun s => (s.pc, s.halted)) = some (.vint 255, false) ∧
    (runN 3 (initState [LDI, 0, 255, JMP, 0])).map CPUState.pc = none :=
  ⟨by decide, by decide⟩

/-- Claim C8, witness: the initial state's fetches succeed and address 5
past a 3-byte program reads 0. -/
theorem fetch_reads_ok_witness :
    ((ram_read (initState []) (initState []).pc).isSome = true ∧
      (ram_read (initState []) (Val.add (initState []).pc (.vint 1))).isSome = true ∧
      (ram_read (initState []) (Val.add (initState []).pc (.vint 2))).isSome = true) ∧
    (initState [1, 2, 3]).ram ⟨5, by norm_num⟩ = .vint 0 :=
  fetch_reads_ok (initState []) 0 [1, 2, 3] ⟨5, by norm_num⟩ (by decide) (by decide)
    (by decide) (by decide) (by decide)

/-- Claim C9, witness: an LDI step leaves the flag bitset (here 2)
unchanged. -/
theorem non_cmp_preserves_flags_witness :
    (stepState c9s).map CPUState.fl = some c9s.fl := by
  obtain ⟨s', hs'⟩ := Option.isSome_iff_exists.mp
    (show (stepState c9s).isSome = true from by decide)
  rw [hs', Option.map_some']
  rw [non_cmp_preserves_flags c9s LDI s' (by decide) (by decide) hs']

/-- Claim C10: in a state whose stack-pointer register holds the int 0,
executing PSH writes the pushed value to memory address 255 (the
decremented index -1 wraps, by Python negative indexing, to the last cell)
and leaves the stack pointer holding -1, which lies outside the documented
address range [0,255]. -/
theorem psh_wraps_at_zero (s : CPUState) (av bv : Val) (ia : Fin 8)
    (h0 : s.reg SP = .vint 0)
    (h1 : ram_read s s.pc = some (.vint PSH))
    (h2 : ram_read s (Val.add s.pc (.vint 1)) = some av)
    (h3 : ram_read s (Val.add s.pc (.vint 2)) = some bv)
    (ha : pyIdx8 av = some ia) :
    ∃ s', stepState s = some s' ∧ s'.reg SP = .vint (-1) ∧
      ram_read s' (.vint 255) = some (s.reg ia) ∧
      (∀ i : Int, s'.reg SP = .vint i → ¬(0 ≤ i ∧ i ≤ 255)) := by
  have hw : pyIdx (Val.sub (s.reg SP) (.vint 1)) = some ⟨255, by norm_num⟩ := by
    rw [h0]; decide
  rw [stepState_eq h1 h2 h3, if_pos (by decide : PSH ∈ branchtable), execInstr_PSH]
  set s1 : CPUState := { s with setsPC := decide ((PSH.fdiv 16) % 2 = 1) } with hs1
  rw [psh_eq ha (show pyIdx (Val.sub (s1.reg SP) (.vint 1)) = some ⟨255, by norm_num⟩ from hw), some_bind]
  have hsp : Function.update s.reg SP (Val.sub (s.reg SP) (.vint 1)) SP = .vint (-1) := by
    rw [Function.update_same, h0]
    decide
  refine ⟨_, rfl, ?_, ?_, ?_⟩
  · show Function.update s.reg SP (Val.sub (s.reg SP) (.vint 1)) SP = .vint (-1)
    exact hsp
  · have h255 : pyIdx (.vint 255) = some ⟨255, by norm_num⟩ := by decide
    simp only [ram_read, h255, Option.map_some', Option.some.injEq]
    show Function.update s.ram ⟨255, by norm_num⟩ (s.reg ia) ⟨255, by norm_num⟩ = s.reg ia
    exact Function.update_same _ _ _
  · intro i hi
    have h2i : Val.vint (-1) = Val.vint i := by
      rw [← hsp]
      exact hi
    injection h2i with h2i
    omega

/-- Claim C10, witness: PSH 3 with the stack pointer at 0 and register 3
holding 42. -/
theorem psh_wraps_at_zero_witness :
    ∃ s', stepState c10w = some s' ∧ s'.reg SP = .vint (-1) ∧
      ram_read s' (.vint 255) = some (c10w.reg 3) ∧
      (∀ i : Int, s'.reg SP = .vint i → ¬(0 ≤ i ∧ i ≤ 255)) :=
  psh_wraps_at_zero c10w (.vint 3) (.vint 0) 3 (by decide) (by decide) (by decide)
    (by decide) (by decide)

end CPU

end LS8
